import Mathlib

/-!
Verification of the route reconciliation engine in
pkg/datapath/route/route.go.

The Go code is shallowly embedded: IP addresses and masks are byte
lists, the netlink route record is a structure, fallible calls return
Except values, and a Go nil-pointer dereference is modelled as a
distinguished panic error that propagates.  The kernel route table and
the netlink adapter (package netlink, which is outside the sources)
are modelled from the specification of the Kernel Route Adapter.
-/

deriving instance DecidableEq for Except

/-- Go net.IP: a byte slice, one Nat per byte.  The empty list is the
Go nil IP. -/
abbrev IP := List Nat

/-- The 12 leading bytes of an IPv4-in-IPv6 address (Go v4InV6Prefix). -/
def v4InV6 : List Nat := [0, 0, 0, 0, 0, 0, 0, 0, 0, 0, 255, 255]

/-- Go net.IP.To4: the 4-byte form of an IPv4 address, none otherwise. -/
def IP.to4 (ip : IP) : Option IP :=
  if ip.length = 4 then some ip
  else if ip.length = 16 ∧ ip.take 12 = v4InV6 then some (ip.drop 12)
  else none

/-- Go net.IP.Equal: equality up to the IPv4-in-IPv6 embedding. -/
def IP.equal (ip x : IP) : Bool :=
  if ip.length = x.length then ip == x
  else if ip.length = 4 ∧ x.length = 16 then
    decide (x.take 12 = v4InV6 ∧ ip = x.drop 12)
  else if ip.length = 16 ∧ x.length = 4 then
    decide (ip.take 12 = v4InV6 ∧ ip.drop 12 = x)
  else false

/-- Leading-ones count of a single mask byte, none when the byte is not
of the shape 1...10...0 (Go simpleMaskLength inner loop). -/
def byteOnes : Nat → Option Nat
  | 0 => some 0
  | 128 => some 1
  | 192 => some 2
  | 224 => some 3
  | 240 => some 4
  | 248 => some 5
  | 252 => some 6
  | 254 => some 7
  | 255 => some 8
  | _ => none

/-- Go simpleMaskLength: the number of leading one bits of a canonical
prefix mask, none when the mask is not a canonical prefix. -/
def leadingMaskLen : List Nat → Option Nat
  | [] => some 0
  | v :: rest =>
    if v = 255 then (leadingMaskLen rest).map (fun n => n + 8)
    else
      match byteOnes v with
      | some k => if rest.all (fun b => b == 0) then some k else none
      | none => none

/-- Go net.IPMask.Size: (ones, bits) of a mask, (0, 0) when the mask is
not a canonical prefix mask. -/
def maskSize (m : List Nat) : Nat × Nat :=
  match leadingMaskLen m with
  | some n => (n, 8 * m.length)
  | none => (0, 0)

/-- Go net.CIDRMask. -/
def CIDRMask (ones bits : Nat) : List Nat :=
  if (bits = 32 ∨ bits = 128) ∧ ones ≤ bits then
    (List.range (bits / 8)).map (fun i =>
      if 8 * (i + 1) ≤ ones then 255
      else if 8 * i ≤ ones then 255 - (255 >>> (ones - 8 * i))
      else 0)
  else []

/-- Go net.IPNet: address plus mask. -/
structure IPNet where
  ip : IP
  mask : List Nat
deriving DecidableEq

/-- Go net.networkNumberAndMask: the normalized (address, mask) pair of
an IPNet, none when malformed. -/
def networkNumberAndMask (n : IPNet) : Option (IP × List Nat) :=
  let oip : Option IP :=
    match IP.to4 n.ip with
    | some i4 => some i4
    | none => if n.ip.length = 16 then some n.ip else none
  match oip with
  | none => none
  | some ip =>
    if n.mask.length = 4 then
      if ip.length = 4 then some (ip, n.mask) else none
    else if n.mask.length = 16 then
      if ip.length = 4 then some (ip, n.mask.drop 12) else some (ip, n.mask)
    else none

/-- Go net.IPNet.Contains. -/
def IPNet.contains (n : IPNet) (x : IP) : Bool :=
  let nnm := (networkNumberAndMask n).getD ([], [])
  let ip := match IP.to4 x with
    | some x4 => x4
    | none => x
  ip.length == nnm.1.length &&
    (List.range ip.length).all (fun i =>
      (nnm.1.getD i 0) &&& (nnm.2.getD i 0) == (ip.getD i 0) &&& (nnm.2.getD i 0))

/-- netlink.SCOPE_LINK. -/
def SCOPE_LINK : Nat := 253

/-- netlink.FAMILY_V4. -/
def FAMILY_V4 : Nat := 2

/-- netlink.FAMILY_V6. -/
def FAMILY_V6 : Nat := 10

/-- netlink.Route, restricted to the fields the reconciliation code
reads or writes.  Field defaults are the Go zero values. -/
structure NetlinkRoute where
  dst : Option IPNet := none
  src : IP := []
  gw : IP := []
  linkIndex : Nat := 0
  scope : Nat := 0
  mtu : Nat := 0
deriving DecidableEq

/-- The Route Specification (struct Route in route.go).  Field defaults
are the Go zero values. -/
structure Route where
  Prefix : IPNet
  Nexthop : Option IP := none
  Local : IP := []
  Device : String := ""
  MTU : Nat := 0
  Scope : Nat := 0
deriving DecidableEq

/-- A Go runtime panic reached by the embedded code. -/
inductive GoPanic where
  | nilDeref
deriving DecidableEq

/-- Outcome of a fallible call: an ordinary Go error value, or a
propagating runtime panic. -/
inductive GoErr where
  | err (msg : String)
  | panic (p : GoPanic)
deriving DecidableEq

/-- A resolved device handle (netlink.Link with its Attrs().Index). -/
structure Link where
  index : Nat
deriving DecidableEq

/-- One observable call made to the Kernel Route Adapter. -/
inductive Event where
  | linkByName (name : String)
  | routeList (linkIndex fam : Nat)
  | routeReplace (r : NetlinkRoute)
  | routeDel (r : NetlinkRoute)
deriving DecidableEq

/-- Modelled from the spec: the Kernel Route Adapter state (section
4.3).  The netlink package is outside the sources, so the kernel route
table is a plain list of routes, device resolution is a name-to-index
association list, and each fallible adapter operation carries a fault
flag used to model an adapter failure. -/
structure Kernel where
  links : List (String × Nat)
  table : List NetlinkRoute
  listFail : Bool := false
  replaceFail : Bool := false
  delFail : Bool := false
deriving DecidableEq

/-- Modelled from the spec: netlink.LinkByName resolves a device name
to a handle or fails with a not-found error. -/
def netlinkLinkByName (k : Kernel) (name : String) :
    Except String Link × List Event :=
  (match k.links.lookup name with
   | some i => .ok { index := i }
   | none => .error ("Link not found"), [Event.linkByName name])

/-- Family predicate of a kernel route, used by the route-list filter:
the family of its destination, default routes passing any family. -/
def routeFamilyOk (fam : Nat) (r : NetlinkRoute) : Bool :=
  match r.dst with
  | some d => (if (IP.to4 d.ip).isSome then FAMILY_V4 else FAMILY_V6) == fam
  | none => true

/-- Modelled from the spec: the routes netlink.RouteList returns for a
device and family: only routes attached to that device. -/
def routeListOf (k : Kernel) (link : Link) (fam : Nat) : List NetlinkRoute :=
  k.table.filter (fun r => r.linkIndex == link.index && routeFamilyOk fam r)

/-- Modelled from the spec: netlink.RouteList, an adapter query that
either fails (fault flag) or returns the device+family routes. -/
def netlinkRouteList (k : Kernel) (link : Link) (fam : Nat) :
    Except String (List NetlinkRoute) × List Event :=
  (if k.listFail then .error ("route list failed")
   else .ok (routeListOf k link fam),
   [Event.routeList link.index fam])

/-- Modelled from the spec: replace semantics overwrite an
identical-key route and add otherwise; the key is the whole route
record, which the spec leaves abstract. -/
def kernelInsert (k : Kernel) (r : NetlinkRoute) : Kernel :=
  { k with table := if r ∈ k.table then k.table else k.table ++ [r] }

/-- Modelled from the spec: netlink.RouteReplace, an adapter mutation
that either fails (fault flag) or installs the route. -/
def netlinkRouteReplace (k : Kernel) (r : NetlinkRoute) :
    Except String Unit × Kernel × List Event :=
  if k.replaceFail then (.error ("route replace failed"), k, [Event.routeReplace r])
  else (.ok (), kernelInsert k r, [Event.routeReplace r])

/-- Modelled from the spec: netlink.RouteDel, an adapter mutation that
either fails (fault flag) or removes the identified route; route
identification detail is irrelevant to the claims and taken as
whole-record equality. -/
def netlinkRouteDel (k : Kernel) (r : NetlinkRoute) :
    Except String Unit × Kernel × List Event :=
  if k.delFail then (.error ("route delete failed"), k, [Event.routeDel r])
  else (.ok (), { k with table := k.table.filter (fun x => decide (x ≠ r)) },
        [Event.routeDel r])

/-- Route.getNetlinkRoute from route.go. -/
def Route.getNetlinkRoute (r : Route) : NetlinkRoute :=
  let rt : NetlinkRoute := { dst := some r.Prefix, src := r.Local, mtu := r.MTU }
  let rt := match r.Nexthop with
    | some nh => { rt with gw := nh }
    | none => rt
  if r.Scope ≠ 0 then { rt with scope := r.Scope } else rt

/-- Route.getNexthopAsIPNet from route.go: the gateway widened to a
host-only net, none when the route has no gateway. -/
def Route.getNexthopAsIPNet (r : Route) : Option IPNet :=
  match r.Nexthop with
  | none => none
  | some nh =>
    if (IP.to4 nh).isSome then some { ip := nh, mask := CIDRMask 32 32 }
    else some { ip := nh, mask := CIDRMask 128 128 }

/-- ipFamily from route.go. -/
def ipFamily (ip : IP) : Nat :=
  if (IP.to4 ip).isSome then FAMILY_V4 else FAMILY_V6

/-- The per-candidate comparison inside the loop of lookup in route.go,
for the case where both routes carry a destination. -/
def nlRouteEq (r route : NetlinkRoute) : Bool :=
  match r.dst, route.dst with
  | some rd, some td =>
    r.linkIndex == route.linkIndex && r.scope == route.scope &&
    (maskSize rd.mask).1 == (maskSize td.mask).1 &&
    (maskSize rd.mask).2 == (maskSize td.mask).2 &&
    IP.equal rd.ip td.ip && IP.equal r.gw route.gw
  | _, _ => false

/-- The loop of lookup in route.go over the listed routes.  When both
the filter and the candidate lack a destination the Go code calls
r.Dst.Mask.Size() on a nil pointer, which panics. -/
def lookupFind (route : NetlinkRoute) : List NetlinkRoute → Except GoPanic (Option NetlinkRoute)
  | [] => .ok none
  | r :: rest =>
    if r.dst.isSome && route.dst.isNone then lookupFind route rest
    else if route.dst.isSome && r.dst.isNone then lookupFind route rest
    else if r.dst.isNone && route.dst.isNone then .error .nilDeref
    else if nlRouteEq r route then .ok (some r)
    else lookupFind route rest

/-- lookup from route.go.  A filter route without a destination panics
at ipFamily(route.Dst.IP); a route-list error is swallowed and
reported as no match. -/
def lookup (k : Kernel) (link : Link) (route : NetlinkRoute) :
    Except GoPanic (Option NetlinkRoute) × Kernel × List Event :=
  match route.dst with
  | none => (.error .nilDeref, k, [])
  | some d =>
    match netlinkRouteList k link (ipFamily d.ip) with
    | (.error _, ev) => (.ok none, k, ev)
    | (.ok routes, ev) => (lookupFind route routes, k, ev)

/-- createNexthopRoute from route.go.  A nil routerNet panics at
routerNet.IP.To4(). -/
def createNexthopRoute (link : Link) (routerNet : Option IPNet) :
    Except GoPanic NetlinkRoute :=
  match routerNet with
  | none => .error .nilDeref
  | some net =>
    let rt : NetlinkRoute := { linkIndex := link.index, dst := some net }
    .ok (if (IP.to4 net.ip).isSome then { rt with scope := SCOPE_LINK } else rt)

/-- replaceNexthopRoute from route.go. -/
def replaceNexthopRoute (k : Kernel) (link : Link) (routerNet : Option IPNet) :
    Except GoErr Bool × Kernel × List Event :=
  match createNexthopRoute link routerNet with
  | .error p => (.error (.panic p), k, [])
  | .ok route =>
    match lookup k link route with
    | (.error p, k1, ev) => (.error (.panic p), k1, ev)
    | (.ok none, k1, ev) =>
      (match netlinkRouteReplace k1 route with
       | (.error e, k2, ev2) =>
         (.error (.err ("unable to add L2 nexthop route: " ++ e)), k2, ev ++ ev2)
       | (.ok _, k2, ev2) => (.ok true, k2, ev ++ ev2))
    | (.ok (some _), k1, ev) => (.ok false, k1, ev)

/-- Modelled from the spec: the MTU-policy collaborator (package mtu is
outside the sources): the device-native MTU and the lower tunnel-safe
route MTU. -/
structure MTUPolicy where
  deviceMTU : Nat
  routeMTU : Nat
deriving DecidableEq

/-- The install request replaceRoute builds for the main route: the
netlink form of the specification, bound to the resolved device, with
the MTU policy applied. -/
def mainRouteSpec (cfg : MTUPolicy) (route : Route) (link : Link) : NetlinkRoute :=
  let routeSpec := route.getNetlinkRoute
  let routeSpec := { routeSpec with linkIndex := link.index }
  if routeSpec.mtu ≠ 0 then
    if route.Prefix.contains route.Local then { routeSpec with mtu := cfg.deviceMTU }
    else { routeSpec with mtu := cfg.routeMTU }
  else routeSpec

/-- The error wrapping replaceRoute applies to a failed nexthop step; a
panic is not an error value and propagates unwrapped. -/
def wrapNexthopErr : GoErr → GoErr
  | .err m => .err ("unable to add nexthop route: " ++ m)
  | .panic p => .panic p

/-- replaceRoute from route.go. -/
def replaceRoute (k : Kernel) (cfg : MTUPolicy) (route : Route) :
    Except GoErr Bool × Kernel × List Event :=
  match netlinkLinkByName k route.Device with
  | (.error e, ev) =>
    (.error (.err ("unable to lookup interface " ++ route.Device ++ ": " ++ e)), k, ev)
  | (.ok link, ev) =>
    let routerNet := route.getNexthopAsIPNet
    match replaceNexthopRoute k link routerNet with
    | (.error e, k1, ev2) => (.error (wrapNexthopErr e), k1, ev ++ ev2)
    | (.ok _, k1, ev2) =>
      let routeSpec := mainRouteSpec cfg route link
      match lookup k1 link routeSpec with
      | (.error p, k2, ev3) => (.error (.panic p), k2, ev ++ ev2 ++ ev3)
      | (.ok none, k2, ev3) =>
        (match netlinkRouteReplace k2 routeSpec with
         | (.error e, k3, ev4) => (.error (.err e), k3, ev ++ ev2 ++ ev3 ++ ev4)
         | (.ok _, k3, ev4) => (.ok true, k3, ev ++ ev2 ++ ev3 ++ ev4))
      | (.ok (some _), k2, ev3) => (.ok false, k2, ev ++ ev2 ++ ev3)

/-- ReplaceRoute from route.go: the public entry, which logs the
changed flag and returns only the error. -/
def ReplaceRoute (k : Kernel) (cfg : MTUPolicy) (route : Route) :
    Except GoErr Unit × Kernel × List Event :=
  match replaceRoute k cfg route with
  | (.error e, k1, ev) => (.error e, k1, ev)
  | (.ok _, k1, ev) => (.ok (), k1, ev)

/-- deleteRoute from route.go: unconditional delete with gateway and
source suppressed and scope only for IPv4. -/
def deleteRoute (k : Kernel) (route : Route) :
    Except GoErr Unit × Kernel × List Event :=
  match netlinkLinkByName k route.Device with
  | (.error e, ev) =>
    (.error (.err ("unable to lookup interface " ++ route.Device ++ ": " ++ e)), k, ev)
  | (.ok link, ev) =>
    let routeSpec : NetlinkRoute := { dst := some route.Prefix, linkIndex := link.index }
    let routeSpec :=
      if (IP.to4 route.Prefix.ip).isSome then { routeSpec with scope := route.Scope }
      else routeSpec
    match netlinkRouteDel k routeSpec with
    | (.error e, k1, ev2) => (.error (.err e), k1, ev ++ ev2)
    | (.ok _, k1, ev2) => (.ok (), k1, ev ++ ev2)

/-- DeleteRoute from route.go: the public entry, which only adds
logging. -/
def DeleteRoute (k : Kernel) (route : Route) :
    Except GoErr Unit × Kernel × List Event :=
  deleteRoute k route

/-- True when a lookup result reports an existing matching route. -/
def isFound : Except GoPanic (Option NetlinkRoute) → Bool
  | .ok (some _) => true
  | _ => false

/-- The host-only net a gateway is widened to (the value
getNexthopAsIPNet returns when a gateway is present). -/
def nexthopNetOf (g : IP) : IPNet :=
  { ip := g, mask := if (IP.to4 g).isSome then CIDRMask 32 32 else CIDRMask 128 128 }

/-- The on-link route createNexthopRoute builds for gateway g. -/
def nexthopRouteOf (link : Link) (g : IP) : NetlinkRoute :=
  { linkIndex := link.index, dst := some (nexthopNetOf g),
    scope := if (IP.to4 g).isSome then SCOPE_LINK else 0 }

/-- Example MTU policy. -/
def exCfg : MTUPolicy := { deviceMTU := 1500, routeMTU := 1450 }

/-- Example IPv4 destination net 10.0.0.0/24. -/
def exNet4 : IPNet := { ip := [10, 0, 0, 0], mask := CIDRMask 24 32 }

/-- Example device handle. -/
def exLink : Link := { index := 7 }

/-- Example route specification with a gateway. -/
def exRoute : Route :=
  { Prefix := exNet4, Nexthop := some [10, 0, 0, 1], Local := [10, 0, 0, 2],
    Device := "eth0", MTU := 1400 }

/-- Example route specification without a gateway. -/
def exRouteNoGw : Route := { Prefix := exNet4, Device := "eth0" }

/-- Example kernel: one resolvable device, empty route table. -/
def exKernel : Kernel := { links := [("eth0", 7)], table := [] }

/-- The main install request of the example route. -/
def exMain : NetlinkRoute := mainRouteSpec exCfg exRoute exLink

/-- The on-link nexthop route of the example route. -/
def exNhRt : NetlinkRoute := nexthopRouteOf exLink [10, 0, 0, 1]

/-- Example kernel whose route table already holds both example routes
but whose list operation fails. -/
def exKernelLF : Kernel :=
  { links := [("eth0", 7)], table := [exNhRt, exMain], listFail := true }

/-- Example kernel without any resolvable device. -/
def exKernelNoLink : Kernel := { links := [], table := [] }

/-- Example kernel whose delete operation fails. -/
def exKernelDelFail : Kernel := { links := [("eth0", 7)], table := [], delFail := true }

/-- Example kernel whose list and replace operations fail. -/
def exKernelRepFail : Kernel :=
  { links := [("eth0", 7)], table := [], listFail := true, replaceFail := true }

/-- Example existing route identical to the example install request
except for a nonzero scope. -/
def exErScoped : NetlinkRoute := { exMain with scope := 200 }

/-- Example kernel whose table holds only the differently-scoped twin
of the example install request. -/
def exKernelScoped : Kernel := { links := [("eth0", 7)], table := [exErScoped] }

/-- Example lookup filter without a destination (a default route). -/
def exFilterNoDst : NetlinkRoute := { dst := none, linkIndex := 7 }

theorem IP.equal_refl (ip : IP) : IP.equal ip ip = true := by
  simp [IP.equal]

theorem nlRouteEq_refl (r : NetlinkRoute) (d : IPNet) (h : r.dst = some d) :
    nlRouteEq r r = true := by
  simp [nlRouteEq, h, IP.equal_refl]

theorem nlRouteEq_scope_eq {x y : NetlinkRoute} (h : nlRouteEq x y = true) :
    x.scope = y.scope := by
  unfold nlRouteEq at h
  cases hx : x.dst <;> rw [hx] at h
  · simp at h
  · cases hy : y.dst <;> rw [hy] at h
    · simp at h
    · simp only [Bool.and_eq_true, beq_iff_eq] at h
      exact h.1.1.1.1.2

theorem nlRouteEq_dst_isSome {x y : NetlinkRoute} (h : nlRouteEq x y = true) :
    x.dst.isSome = true := by
  unfold nlRouteEq at h
  cases hx : x.dst <;> rw [hx] at h
  · simp at h
  · rfl

theorem lookupFind_cons (route r : NetlinkRoute) (rest : List NetlinkRoute)
    (d : IPNet) (hd : route.dst = some d) :
    lookupFind route (r :: rest) =
      (if r.dst.isNone then lookupFind route rest
       else if nlRouteEq r route then .ok (some r)
       else lookupFind route rest) := by
  simp [lookupFind, hd]

theorem lookupFind_ok (route : NetlinkRoute) (d : IPNet) (hd : route.dst = some d)
    (l : List NetlinkRoute) : ∃ o, lookupFind route l = .ok o := by
  induction l with
  | nil => exact ⟨none, rfl⟩
  | cons r rest ih =>
    rw [lookupFind_cons route r rest d hd]
    cases hr : r.dst
    · simpa using ih
    · simp only [hr, Option.isNone_some, if_false]
      by_cases he : nlRouteEq r route = true
      · exact ⟨some r, by simp [he]⟩
      · simpa [he] using ih

theorem lookupFind_eq_none (route : NetlinkRoute) (d : IPNet)
    (hd : route.dst = some d) (l : List NetlinkRoute)
    (hall : ∀ r ∈ l, nlRouteEq r route = false) :
    lookupFind route l = .ok none := by
  induction l with
  | nil => rfl
  | cons r rest ih =>
    have hr0 : nlRouteEq r route = false := hall r (List.mem_cons_self r rest)
    have hrest : ∀ x ∈ rest, nlRouteEq x route = false :=
      fun x hx => hall x (List.mem_cons_of_mem r hx)
    rw [lookupFind_cons route r rest d hd]
    cases hr : r.dst
    · simpa using ih hrest
    · simpa [hr0] using ih hrest

theorem lookupFind_found (route : NetlinkRoute) (d : IPNet)
    (hd : route.dst = some d) (l : List NetlinkRoute) (r0 : NetlinkRoute)
    (hmem : r0 ∈ l) (heq : nlRouteEq r0 route = true) :
    isFound (lookupFind route l) = true := by
  induction l with
  | nil => cases hmem
  | cons r rest ih =>
    rw [lookupFind_cons route r rest d hd]
    rcases List.mem_cons.mp hmem with hEq | hrest
    · subst hEq
      have hds : r0.dst.isSome = true := nlRouteEq_dst_isSome heq
      cases hr : r0.dst
      · rw [hr] at hds; cases hds
      · simp [hr, heq, isFound]
    · cases hr : r.dst
      · simpa using ih hrest
      · simp only [hr, Option.isNone_some, if_false]
        by_cases he : nlRouteEq r route = true
        · simp [he, isFound]
        · simpa [he] using ih hrest

theorem lookupFind_some_mem (route : NetlinkRoute) (d : IPNet)
    (hd : route.dst = some d) (l : List NetlinkRoute) (r0 : NetlinkRoute)
    (h : lookupFind route l = .ok (some r0)) :
    r0 ∈ l ∧ nlRouteEq r0 route = true := by
  induction l with
  | nil => simp [lookupFind] at h
  | cons r rest ih =>
    rw [lookupFind_cons route r rest d hd] at h
    by_cases hn : r.dst.isNone = true
    · rw [if_pos hn] at h
      exact ⟨List.mem_cons_of_mem r (ih h).1, (ih h).2⟩
    · rw [if_neg hn] at h
      by_cases he : nlRouteEq r route = true
      · rw [if_pos he] at h
        injection h with h1
        injection h1 with h2
        subst h2
        exact ⟨List.mem_cons_self r rest, he⟩
      · rw [if_neg he] at h
        exact ⟨List.mem_cons_of_mem r (ih h).1, (ih h).2⟩

theorem linkByName_some (k : Kernel) (n : String) (i : Nat)
    (h : k.links.lookup n = some i) :
    netlinkLinkByName k n = (.ok { index := i }, [Event.linkByName n]) := by
  simp [netlinkLinkByName, h]

theorem linkByName_none (k : Kernel) (n : String)
    (h : k.links.lookup n = none) :
    netlinkLinkByName k n = (.error ("Link not found"), [Event.linkByName n]) := by
  simp [netlinkLinkByName, h]

theorem lookup_eq (k : Kernel) (link : Link) (route : NetlinkRoute) (d : IPNet)
    (hd : route.dst = some d) (hl : k.listFail = false) :
    lookup k link route =
      (lookupFind route (routeListOf k link (ipFamily d.ip)), k,
       [Event.routeList link.index (ipFamily d.ip)]) := by
  simp [lookup, netlinkRouteList, hd, hl]

theorem lookup_listFail (k : Kernel) (link : Link) (route : NetlinkRoute)
    (d : IPNet) (hd : route.dst = some d) (hl : k.listFail = true) :
    lookup k link route =
      (.ok none, k, [Event.routeList link.index (ipFamily d.ip)]) := by
  simp [lookup, netlinkRouteList, hd, hl]

theorem getNexthopAsIPNet_some (r : Route) (g : IP) (h : r.Nexthop = some g) :
    r.getNexthopAsIPNet = some (nexthopNetOf g) := by
  simp only [Route.getNexthopAsIPNet, h, nexthopNetOf]
  cases hc : (IP.to4 g).isSome <;> simp [hc]

theorem createNexthopRoute_eq (link : Link) (g : IP) :
    createNexthopRoute link (some (nexthopNetOf g)) = .ok (nexthopRouteOf link g) := by
  simp only [createNexthopRoute, nexthopNetOf, nexthopRouteOf]
  cases hc : (IP.to4 g).isSome <;> simp [hc]

theorem kernelInsert_links (k : Kernel) (r : NetlinkRoute) :
    (kernelInsert k r).links = k.links := rfl

theorem kernelInsert_listFail (k : Kernel) (r : NetlinkRoute) :
    (kernelInsert k r).listFail = k.listFail := rfl

theorem kernelInsert_replaceFail (k : Kernel) (r : NetlinkRoute) :
    (kernelInsert k r).replaceFail = k.replaceFail := rfl

theorem mem_kernelInsert_self (k : Kernel) (r : NetlinkRoute) :
    r ∈ (kernelInsert k r).table := by
  simp only [kernelInsert]
  split
  · assumption
  · simp

theorem mem_kernelInsert_of_mem (k : Kernel) (r x : NetlinkRoute)
    (h : x ∈ k.table) : x ∈ (kernelInsert k r).table := by
  simp only [kernelInsert]
  split
  · exact h
  · simp [h]

theorem mem_kernelInsert (k : Kernel) (r x : NetlinkRoute)
    (h : x ∈ (kernelInsert k r).table) : x ∈ k.table ∨ x = r := by
  simp only [kernelInsert] at h
  split at h
  · exact Or.inl h
  · simpa using h

theorem mem_routeListOf (k : Kernel) (link : Link) (fam : Nat) (x : NetlinkRoute) :
    x ∈ routeListOf k link fam ↔
      x ∈ k.table ∧ x.linkIndex = link.index ∧ routeFamilyOk fam x = true := by
  simp [routeListOf, List.mem_filter, and_assoc]

theorem routeListOf_insert_mono (k : Kernel) (link : Link) (fam : Nat)
    (r x : NetlinkRoute) (h : x ∈ routeListOf k link fam) :
    x ∈ routeListOf (kernelInsert k r) link fam := by
  rw [mem_routeListOf] at h ⊢
  exact ⟨mem_kernelInsert_of_mem k r x h.1, h.2⟩

theorem routeListOf_insert_sub (k : Kernel) (link : Link) (fam : Nat)
    (r x : NetlinkRoute) (h : x ∈ routeListOf (kernelInsert k r) link fam) :
    x ∈ routeListOf k link fam ∨ x = r := by
  rw [mem_routeListOf] at h
  rcases mem_kernelInsert k r x h.1 with hx | hx
  · exact Or.inl ((mem_routeListOf k link fam x).mpr ⟨hx, h.2⟩)
  · exact Or.inr hx

theorem routeFamilyOk_of_dst (x : NetlinkRoute) (dnet : IPNet)
    (h : x.dst = some dnet) : routeFamilyOk (ipFamily dnet.ip) x = true := by
  simp [routeFamilyOk, h, ipFamily]

theorem getNetlinkRoute_eq (r : Route) :
    r.getNetlinkRoute =
      { dst := some r.Prefix, src := r.Local,
        gw := r.Nexthop.getD [], linkIndex := 0, scope := r.Scope, mtu := r.MTU } := by
  unfold Route.getNetlinkRoute
  cases hn : r.Nexthop <;> by_cases hs : r.Scope = 0 <;> simp [hn, hs]

theorem mainRouteSpec_eq (cfg : MTUPolicy) (route : Route) (link : Link) :
    mainRouteSpec cfg route link =
      { dst := some route.Prefix, src := route.Local,
        gw := route.Nexthop.getD [], linkIndex := link.index,
        scope := route.Scope,
        mtu := if route.MTU = 0 then 0
               else if route.Prefix.contains route.Local then cfg.deviceMTU
               else cfg.routeMTU } := by
  simp only [mainRouteSpec, getNetlinkRoute_eq]
  by_cases hm : route.MTU = 0 <;>
    by_cases hc : route.Prefix.contains route.Local = true <;>
      simp [hm, hc]

theorem replaceNexthopRoute_run (k : Kernel) (link : Link) (g : IP)
    (hlist : k.listFail = false) (hrep : k.replaceFail = false) :
    ∃ b k1,
      replaceNexthopRoute k link (some (nexthopNetOf g)) =
        (.ok b, k1,
          Event.routeList link.index (ipFamily g) ::
            (if b then [Event.routeReplace (nexthopRouteOf link g)] else [])) ∧
      (b = true → k1 = kernelInsert k (nexthopRouteOf link g)) ∧
      (b = false → k1 = k ∧ ∃ m ∈ routeListOf k link (ipFamily g),
        nlRouteEq m (nexthopRouteOf link g) = true) := by
  have hfam : ipFamily (nexthopNetOf g).ip = ipFamily g := rfl
  have hl := lookup_eq k link (nexthopRouteOf link g) (nexthopNetOf g) rfl hlist
  obtain ⟨o, ho⟩ := lookupFind_ok (nexthopRouteOf link g) (nexthopNetOf g) rfl
    (routeListOf k link (ipFamily (nexthopNetOf g).ip))
  cases o with
  | none =>
    refine ⟨true, kernelInsert k (nexthopRouteOf link g), ?_,
      ⟨fun _ => rfl, fun h => Bool.noConfusion h⟩⟩
    simp only [replaceNexthopRoute, createNexthopRoute_eq, hl, ho,
      netlinkRouteReplace, hrep]
    simp [hfam]
  | some m =>
    have hm := lookupFind_some_mem (nexthopRouteOf link g) (nexthopNetOf g) rfl
      (routeListOf k link (ipFamily (nexthopNetOf g).ip)) m ho
    refine ⟨false, k, ?_,
      ⟨fun h => Bool.noConfusion h, fun _ => ⟨rfl, ⟨m, hm.1, hm.2⟩⟩⟩⟩
    simp only [replaceNexthopRoute, createNexthopRoute_eq, hl, ho]
    simp [hfam]

theorem mainRouteSpec_dst (cfg : MTUPolicy) (route : Route) (link : Link) :
    (mainRouteSpec cfg route link).dst = some route.Prefix := by
  rw [mainRouteSpec_eq]

theorem mainRouteSpec_linkIndex (cfg : MTUPolicy) (route : Route) (link : Link) :
    (mainRouteSpec cfg route link).linkIndex = link.index := by
  rw [mainRouteSpec_eq]

theorem replaceRoute_success_run (k : Kernel) (cfg : MTUPolicy) (route : Route)
    (g : IP) (i : Nat)
    (hnh : route.Nexthop = some g)
    (hlink : k.links.lookup route.Device = some i)
    (hlist : k.listFail = false) (hrep : k.replaceFail = false)
    (hmain : ∀ er ∈ routeListOf k { index := i } (ipFamily route.Prefix.ip),
      nlRouteEq er (mainRouteSpec cfg route { index := i }) = false)
    (hsep : nlRouteEq (nexthopRouteOf { index := i } g)
      (mainRouteSpec cfg route { index := i }) = false) :
    ∃ b k2,
      replaceRoute k cfg route =
        (.ok true, kernelInsert k2 (mainRouteSpec cfg route { index := i }),
          [Event.linkByName route.Device, Event.routeList i (ipFamily g)] ++
            (if b then [Event.routeReplace (nexthopRouteOf { index := i } g)] else []) ++
            [Event.routeList i (ipFamily route.Prefix.ip),
             Event.routeReplace (mainRouteSpec cfg route { index := i })]) ∧
      (b = true → k2 = kernelInsert k (nexthopRouteOf { index := i } g)) ∧
      (b = false → k2 = k ∧ ∃ m ∈ routeListOf k { index := i } (ipFamily g),
        nlRouteEq m (nexthopRouteOf { index := i } g) = true) := by
  obtain ⟨b, k1, hrun, hbt, hbf⟩ := replaceNexthopRoute_run k { index := i } g hlist hrep
  have hk1list : k1.listFail = false := by
    cases b
    · rw [(hbf rfl).1]; exact hlist
    · rw [hbt rfl, kernelInsert_listFail]; exact hlist
  have hk1rep : k1.replaceFail = false := by
    cases b
    · rw [(hbf rfl).1]; exact hrep
    · rw [hbt rfl, kernelInsert_replaceFail]; exact hrep
  have hall1 : ∀ er ∈ routeListOf k1 { index := i } (ipFamily route.Prefix.ip),
      nlRouteEq er (mainRouteSpec cfg route { index := i }) = false := by
    intro er her
    cases b
    · rw [(hbf rfl).1] at her
      exact hmain er her
    · rw [hbt rfl] at her
      rcases routeListOf_insert_sub k { index := i } (ipFamily route.Prefix.ip)
          (nexthopRouteOf { index := i } g) er her with h | h
      · exact hmain er h
      · rw [h]; exact hsep
  have hfind : lookupFind (mainRouteSpec cfg route { index := i })
      (routeListOf k1 { index := i } (ipFamily route.Prefix.ip)) = .ok none :=
    lookupFind_eq_none (mainRouteSpec cfg route { index := i }) route.Prefix
      (mainRouteSpec_dst cfg route { index := i }) _ hall1
  refine ⟨b, k1, ?_, hbt, hbf⟩
  simp only [replaceRoute, linkByName_some k route.Device i hlink,
    getNexthopAsIPNet_some route g hnh, hrun,
    lookup_eq k1 { index := i } (mainRouteSpec cfg route { index := i }) route.Prefix
      (mainRouteSpec_dst cfg route { index := i }) hk1list,
    hfind, netlinkRouteReplace, hk1rep]
  cases b <;> simp

theorem replaceRoute_unchanged_run (k : Kernel) (cfg : MTUPolicy) (route : Route)
    (g : IP) (i : Nat)
    (hnh : route.Nexthop = some g)
    (hlink : k.links.lookup route.Device = some i)
    (hlist : k.listFail = false)
    (hnhf : ∃ m ∈ routeListOf k { index := i } (ipFamily g),
      nlRouteEq m (nexthopRouteOf { index := i } g) = true)
    (hmf : ∃ m ∈ routeListOf k { index := i } (ipFamily route.Prefix.ip),
      nlRouteEq m (mainRouteSpec cfg route { index := i }) = true) :
    replaceRoute k cfg route =
      (.ok false, k,
        [Event.linkByName route.Device, Event.routeList i (ipFamily g),
         Event.routeList i (ipFamily route.Prefix.ip)]) := by
  have hfam : ipFamily (nexthopNetOf g).ip = ipFamily g := rfl
  obtain ⟨m, hm, hme⟩ := hnhf
  obtain ⟨o, ho⟩ := lookupFind_ok (nexthopRouteOf { index := i } g) (nexthopNetOf g) rfl
    (routeListOf k { index := i } (ipFamily (nexthopNetOf g).ip))
  cases o with
  | none =>
    have hcontra := lookupFind_found (nexthopRouteOf { index := i } g) (nexthopNetOf g)
      rfl (routeListOf k { index := i } (ipFamily (nexthopNetOf g).ip)) m
      (by rw [hfam]; exact hm) hme
    rw [ho] at hcontra
    simp [isFound] at hcontra
  | some m0 =>
    obtain ⟨m1, hm1, hme1⟩ := hmf
    obtain ⟨o1, ho1⟩ := lookupFind_ok (mainRouteSpec cfg route { index := i })
      route.Prefix (mainRouteSpec_dst cfg route { index := i })
      (routeListOf k { index := i } (ipFamily route.Prefix.ip))
    cases o1 with
    | none =>
      have hcontra := lookupFind_found (mainRouteSpec cfg route { index := i })
        route.Prefix (mainRouteSpec_dst cfg route { index := i })
        (routeListOf k { index := i } (ipFamily route.Prefix.ip)) m1 hm1 hme1
      rw [ho1] at hcontra
      simp [isFound] at hcontra
    | some m2 =>
      simp only [replaceRoute, linkByName_some k route.Device i hlink,
        getNexthopAsIPNet_some route g hnh, replaceNexthopRoute, createNexthopRoute_eq,
        lookup_eq k { index := i } (nexthopRouteOf { index := i } g) (nexthopNetOf g)
          rfl hlist, ho,
        lookup_eq k { index := i } (mainRouteSpec cfg route { index := i }) route.Prefix
          (mainRouteSpec_dst cfg route { index := i }) hlist, ho1]
      simp [hfam]

/-- C1 (amended): for every route specification whose nexthop is
present, reconciling it twice against a route table that does not
change between the two calls except through these calls themselves
(device resolvable, adapter healthy, no equivalent main route installed
yet) succeeds both times, returns the changed indicator to the caller
on the first call and the unchanged indicator on the second call, and
the second call performs no install or replace mutation. -/
theorem replaceRoute_idempotent (k : Kernel) (cfg : MTUPolicy) (route : Route)
    (g : IP) (i : Nat)
    (hnh : route.Nexthop = some g)
    (hlink : k.links.lookup route.Device = some i)
    (hlist : k.listFail = false) (hrep : k.replaceFail = false)
    (hmain : ∀ er ∈ routeListOf k { index := i } (ipFamily route.Prefix.ip),
      nlRouteEq er (mainRouteSpec cfg route { index := i }) = false)
    (hsep : nlRouteEq (nexthopRouteOf { index := i } g)
      (mainRouteSpec cfg route { index := i }) = false) :
    (replaceRoute k cfg route).1 = .ok true ∧
    (ReplaceRoute k cfg route).1 = .ok () ∧
    (replaceRoute ((replaceRoute k cfg route).2.1) cfg route).1 = .ok false ∧
    (ReplaceRoute ((replaceRoute k cfg route).2.1) cfg route).1 = .ok () ∧
    (replaceRoute ((replaceRoute k cfg route).2.1) cfg route).2.1 =
      (replaceRoute k cfg route).2.1 ∧
    (replaceRoute ((replaceRoute k cfg route).2.1) cfg route).2.2 =
      [Event.linkByName route.Device, Event.routeList i (ipFamily g),
       Event.routeList i (ipFamily route.Prefix.ip)] := by
  obtain ⟨b, k2, hrun, hbt, hbf⟩ :=
    replaceRoute_success_run k cfg route g i hnh hlink hlist hrep hmain hsep
  have hk2links : k2.links = k.links := by
    cases b
    · rw [(hbf rfl).1]
    · rw [hbt rfl, kernelInsert_links]
  have hk2list : k2.listFail = false := by
    cases b
    · rw [(hbf rfl).1]; exact hlist
    · rw [hbt rfl, kernelInsert_listFail]; exact hlist
  have hKlink : (kernelInsert k2 (mainRouteSpec cfg route { index := i })).links.lookup
      route.Device = some i := by
    rw [kernelInsert_links, hk2links]; exact hlink
  have hKlist : (kernelInsert k2 (mainRouteSpec cfg route { index := i })).listFail
      = false := by
    rw [kernelInsert_listFail]; exact hk2list
  have hnhf : ∃ m ∈ routeListOf (kernelInsert k2 (mainRouteSpec cfg route { index := i }))
      { index := i } (ipFamily g),
      nlRouteEq m (nexthopRouteOf { index := i } g) = true := by
    cases b
    · obtain ⟨hk2, m, hm, hme⟩ := hbf rfl
      refine ⟨m, ?_, hme⟩
      rw [hk2]
      exact routeListOf_insert_mono k { index := i } (ipFamily g)
        (mainRouteSpec cfg route { index := i }) m hm
    · refine ⟨nexthopRouteOf { index := i } g, ?_,
        nlRouteEq_refl (nexthopRouteOf { index := i } g) (nexthopNetOf g) rfl⟩
      rw [mem_routeListOf]
      refine ⟨?_, rfl, ?_⟩
      · rw [hbt rfl]
        exact mem_kernelInsert_of_mem _ _ _
          (mem_kernelInsert_self k (nexthopRouteOf { index := i } g))
      · exact routeFamilyOk_of_dst (nexthopRouteOf { index := i } g) (nexthopNetOf g) rfl
  have hmf : ∃ m ∈ routeListOf (kernelInsert k2 (mainRouteSpec cfg route { index := i }))
      { index := i } (ipFamily route.Prefix.ip),
      nlRouteEq m (mainRouteSpec cfg route { index := i }) = true := by
    refine ⟨mainRouteSpec cfg route { index := i }, ?_,
      nlRouteEq_refl (mainRouteSpec cfg route { index := i }) route.Prefix
        (mainRouteSpec_dst cfg route { index := i })⟩
    rw [mem_routeListOf]
    exact ⟨mem_kernelInsert_self k2 (mainRouteSpec cfg route { index := i }),
      mainRouteSpec_linkIndex cfg route { index := i },
      routeFamilyOk_of_dst (mainRouteSpec cfg route { index := i }) route.Prefix
        (mainRouteSpec_dst cfg route { index := i })⟩
  have h2 := replaceRoute_unchanged_run
    (kernelInsert k2 (mainRouteSpec cfg route { index := i })) cfg route g i
    hnh hKlink hKlist hnhf hmf
  simp only [ReplaceRoute, hrun, h2]
  simp

/-- C1 witness: the amended idempotence theorem applied to a concrete
IPv4 route with gateway against an empty route table. -/
theorem replaceRoute_idempotent_witness :
    exRoute.Nexthop = some [10, 0, 0, 1] ∧
    exKernel.links.lookup exRoute.Device = some 7 ∧
    exKernel.listFail = false ∧
    exKernel.replaceFail = false ∧
    (∀ er ∈ routeListOf exKernel { index := 7 } (ipFamily exRoute.Prefix.ip),
      nlRouteEq er (mainRouteSpec exCfg exRoute { index := 7 }) = false) ∧
    nlRouteEq (nexthopRouteOf { index := 7 } [10, 0, 0, 1])
      (mainRouteSpec exCfg exRoute { index := 7 }) = false ∧
    ((replaceRoute exKernel exCfg exRoute).1 = .ok true ∧
     (ReplaceRoute exKernel exCfg exRoute).1 = .ok () ∧
     (replaceRoute ((replaceRoute exKernel exCfg exRoute).2.1) exCfg exRoute).1 =
       .ok false ∧
     (ReplaceRoute ((replaceRoute exKernel exCfg exRoute).2.1) exCfg exRoute).1 =
       .ok () ∧
     (replaceRoute ((replaceRoute exKernel exCfg exRoute).2.1) exCfg exRoute).2.1 =
       (replaceRoute exKernel exCfg exRoute).2.1 ∧
     (replaceRoute ((replaceRoute exKernel exCfg exRoute).2.1) exCfg exRoute).2.2 =
       [Event.linkByName exRoute.Device, Event.routeList 7 (ipFamily [10, 0, 0, 1]),
        Event.routeList 7 (ipFamily exRoute.Prefix.ip)]) :=
  ⟨by decide, by decide, rfl, rfl, by decide, by decide,
    replaceRoute_idempotent exKernel exCfg exRoute [10, 0, 0, 1] 7
      (by decide) (by decide) rfl rfl (by decide) (by decide)⟩

/-- C1 counterexample: the claim quantifies over every route
specification, but a specification without a nexthop does not succeed:
the first reconciliation call panics on a nil dereference. -/
theorem replaceRoute_idempotent_cex :
    exRouteNoGw.Nexthop = none ∧
    (replaceRoute exKernel exCfg exRouteNoGw).1 = .error (.panic .nilDeref) := by
  decide

/-- C3: the code contradicts the claim.  With an absent nexthop,
replaceRoute still calls replaceNexthopRoute, and createNexthopRoute
dereferences the nil routerNet (routerNet.IP.To4()), so the call panics
after resolving the device instead of treating the nexthop step as a
no-op and proceeding to the main route. -/
theorem replaceRoute_no_gateway_panics :
    exRouteNoGw.Nexthop = none ∧
    replaceRoute exKernel exCfg exRouteNoGw =
      (.error (.panic .nilDeref), exKernel, [Event.linkByName "eth0"]) := by
  decide

/-- C6: the code contradicts the claim.  A desired route without a
destination is not handled totally: lookup dereferences the nil
destination at ipFamily(route.Dst.IP) before any guard runs, and the
loop itself would dereference a nil destination when both routes lack
one, so the check panics instead of reporting no match. -/
theorem lookup_no_dst_panics :
    lookup exKernel exLink exFilterNoDst = (.error .nilDeref, exKernel, []) ∧
    lookupFind exFilterNoDst [exFilterNoDst] = .error .nilDeref := by
  decide

theorem nlRouteEq_iff (r route : NetlinkRoute) (d : IPNet)
    (hd : route.dst = some d) :
    nlRouteEq r route = true ↔
      ∃ rd, r.dst = some rd ∧ r.linkIndex = route.linkIndex ∧
        r.scope = route.scope ∧
        (maskSize rd.mask).1 = (maskSize d.mask).1 ∧
        (maskSize rd.mask).2 = (maskSize d.mask).2 ∧
        IP.equal rd.ip d.ip = true ∧ IP.equal r.gw route.gw = true := by
  unfold nlRouteEq
  rw [hd]
  cases hr : r.dst <;> simp [hr, Bool.and_eq_true, beq_iff_eq, and_assoc]

/-- C2: for every desired route that has a destination and every finite
set of existing routes for the same device and family, the check
reports a match if and only if some existing route has a destination
whose mask length and mask bit-width are numerically equal to the
desired ones, whose destination address is equal, whose gateway is
equal (both absent gateways are the equal empty address), and whose
device index and scope are equal; on the empty set it reports absent,
and it performs no mutation of the route table. -/
theorem lookup_match_iff (k : Kernel) (link : Link) (route : NetlinkRoute)
    (d : IPNet) (hd : route.dst = some d) (hl : k.listFail = false)
    (l : List NetlinkRoute) :
    (isFound (lookupFind route l) = true ↔
      ∃ r ∈ l, ∃ rd, r.dst = some rd ∧ r.linkIndex = route.linkIndex ∧
        r.scope = route.scope ∧
        (maskSize rd.mask).1 = (maskSize d.mask).1 ∧
        (maskSize rd.mask).2 = (maskSize d.mask).2 ∧
        IP.equal rd.ip d.ip = true ∧ IP.equal r.gw route.gw = true) ∧
    lookupFind route ([] : List NetlinkRoute) = .ok none ∧
    (lookup k link route).1 = lookupFind route (routeListOf k link (ipFamily d.ip)) ∧
    (lookup k link route).2.1 = k ∧
    (lookup k link route).2.2 = [Event.routeList link.index (ipFamily d.ip)] := by
  refine ⟨⟨?_, ?_⟩, rfl, ?_, ?_, ?_⟩
  · intro hf
    obtain ⟨o, ho⟩ := lookupFind_ok route d hd l
    cases o with
    | none => rw [ho] at hf; simp [isFound] at hf
    | some r0 =>
      obtain ⟨hm, he⟩ := lookupFind_some_mem route d hd l r0 ho
      exact ⟨r0, hm, (nlRouteEq_iff r0 route d hd).mp he⟩
  · rintro ⟨r0, hm, hcond⟩
    exact lookupFind_found route d hd l r0 hm ((nlRouteEq_iff r0 route d hd).mpr hcond)
  · rw [lookup_eq k link route d hd hl]
  · rw [lookup_eq k link route d hd hl]
  · rw [lookup_eq k link route d hd hl]

/-- C2 witness: the equivalence check applied to a concrete desired
route and a one-element existing set containing its twin. -/
theorem lookup_match_iff_witness :
    (mainRouteSpec exCfg exRoute exLink).dst = some exNet4 ∧
    exKernel.listFail = false ∧
    ((isFound (lookupFind (mainRouteSpec exCfg exRoute exLink) [exMain]) = true ↔
      ∃ r ∈ [exMain], ∃ rd, r.dst = some rd ∧
        r.linkIndex = (mainRouteSpec exCfg exRoute exLink).linkIndex ∧
        r.scope = (mainRouteSpec exCfg exRoute exLink).scope ∧
        (maskSize rd.mask).1 = (maskSize exNet4.mask).1 ∧
        (maskSize rd.mask).2 = (maskSize exNet4.mask).2 ∧
        IP.equal rd.ip exNet4.ip = true ∧
        IP.equal r.gw (mainRouteSpec exCfg exRoute exLink).gw = true) ∧
     lookupFind (mainRouteSpec exCfg exRoute exLink) ([] : List NetlinkRoute) = .ok none ∧
     (lookup exKernel exLink (mainRouteSpec exCfg exRoute exLink)).1 =
       lookupFind (mainRouteSpec exCfg exRoute exLink)
         (routeListOf exKernel exLink (ipFamily exNet4.ip)) ∧
     (lookup exKernel exLink (mainRouteSpec exCfg exRoute exLink)).2.1 = exKernel ∧
     (lookup exKernel exLink (mainRouteSpec exCfg exRoute exLink)).2.2 =
       [Event.routeList exLink.index (ipFamily exNet4.ip)]) :=
  ⟨by decide, rfl,
    lookup_match_iff exKernel exLink (mainRouteSpec exCfg exRoute exLink) exNet4
      (by decide) rfl [exMain]⟩

/-- C5: for a route specification with a gateway for which no matching
on-link route exists, the install of the on-link nexthop route is
issued to the adapter strictly before any main-route install (it is the
third adapter call, directly after device resolution and the nexthop
lookup query); and if ensuring the nexthop route fails, the main-route
equivalence check and install are never attempted, the kernel is left
unchanged, and the call returns the wrapped failure. -/
theorem nexthop_precedence (k : Kernel) (cfg : MTUPolicy) (route : Route)
    (g : IP) (i : Nat)
    (hnh : route.Nexthop = some g)
    (hlink : k.links.lookup route.Device = some i)
    (hlist : k.listFail = false)
    (habs : ∀ er ∈ routeListOf k { index := i } (ipFamily g),
      nlRouteEq er (nexthopRouteOf { index := i } g) = false) :
    if k.replaceFail then
      (replaceRoute k cfg route).1 =
        .error (.err ("unable to add nexthop route: " ++
          ("unable to add L2 nexthop route: " ++ "route replace failed"))) ∧
      (replaceRoute k cfg route).2.1 = k ∧
      (replaceRoute k cfg route).2.2 =
        [Event.linkByName route.Device, Event.routeList i (ipFamily g),
         Event.routeReplace (nexthopRouteOf { index := i } g)]
    else
      (replaceRoute k cfg route).2.2.take 3 =
        [Event.linkByName route.Device, Event.routeList i (ipFamily g),
         Event.routeReplace (nexthopRouteOf { index := i } g)] := by
  have hfam : ipFamily (nexthopNetOf g).ip = ipFamily g := rfl
  have habs2 : ∀ er ∈ routeListOf k { index := i } (ipFamily (nexthopNetOf g).ip),
      nlRouteEq er (nexthopRouteOf { index := i } g) = false := habs
  have hfind : lookupFind (nexthopRouteOf { index := i } g)
      (routeListOf k { index := i } (ipFamily (nexthopNetOf g).ip)) = .ok none :=
    lookupFind_eq_none (nexthopRouteOf { index := i } g) (nexthopNetOf g) rfl _ habs2
  cases hrf : k.replaceFail with
  | true =>
    rw [if_pos rfl]
    simp only [replaceRoute, linkByName_some k route.Device i hlink,
      getNexthopAsIPNet_some route g hnh, replaceNexthopRoute, createNexthopRoute_eq,
      lookup_eq k { index := i } (nexthopRouteOf { index := i } g) (nexthopNetOf g)
        rfl hlist, hfind, netlinkRouteReplace, hrf, wrapNexthopErr]
    simp [hfam]
  | false =>
    rw [if_neg Bool.false_ne_true]
    obtain ⟨b, k1, hrun, hbt, hbf⟩ := replaceNexthopRoute_run k { index := i } g hlist hrf
    cases b with
    | false =>
      obtain ⟨_, m, hm, hme⟩ := hbf rfl
      rw [habs m hm] at hme
      cases hme
    | true =>
      have hk1 : k1 = kernelInsert k (nexthopRouteOf { index := i } g) := hbt rfl
      have hk1list : k1.listFail = false := by
        rw [hk1, kernelInsert_listFail]; exact hlist
      have hk1rep : k1.replaceFail = false := by
        rw [hk1, kernelInsert_replaceFail]; exact hrf
      obtain ⟨o, ho⟩ := lookupFind_ok (mainRouteSpec cfg route { index := i })
        route.Prefix (mainRouteSpec_dst cfg route { index := i })
        (routeListOf k1 { index := i } (ipFamily route.Prefix.ip))
      cases o with
      | none =>
        simp only [replaceRoute, linkByName_some k route.Device i hlink,
          getNexthopAsIPNet_some route g hnh, hrun,
          lookup_eq k1 { index := i } (mainRouteSpec cfg route { index := i })
            route.Prefix (mainRouteSpec_dst cfg route { index := i }) hk1list,
          ho, netlinkRouteReplace, hk1rep]
        simp [List.take]
      | some m2 =>
        simp only [replaceRoute, linkByName_some k route.Device i hlink,
          getNexthopAsIPNet_some route g hnh, hrun,
          lookup_eq k1 { index := i } (mainRouteSpec cfg route { index := i })
            route.Prefix (mainRouteSpec_dst cfg route { index := i }) hk1list,
          ho]
        simp [List.take]

/-- C5 witness: the precedence theorem applied to a concrete route with
gateway against an empty route table (adapter healthy, so the else
branch applies and the first three adapter calls are resolution, the
nexthop query, and the nexthop install). -/
theorem nexthop_precedence_witness :
    exRoute.Nexthop = some [10, 0, 0, 1] ∧
    exKernel.links.lookup exRoute.Device = some 7 ∧
    exKernel.listFail = false ∧
    (∀ er ∈ routeListOf exKernel { index := 7 } (ipFamily [10, 0, 0, 1]),
      nlRouteEq er (nexthopRouteOf { index := 7 } [10, 0, 0, 1]) = false) ∧
    (if exKernel.replaceFail then
      (replaceRoute exKernel exCfg exRoute).1 =
        .error (.err ("unable to add nexthop route: " ++
          ("unable to add L2 nexthop route: " ++ "route replace failed"))) ∧
      (replaceRoute exKernel exCfg exRoute).2.1 = exKernel ∧
      (replaceRoute exKernel exCfg exRoute).2.2 =
        [Event.linkByName exRoute.Device, Event.routeList 7 (ipFamily [10, 0, 0, 1]),
         Event.routeReplace (nexthopRouteOf { index := 7 } [10, 0, 0, 1])]
    else
      (replaceRoute exKernel exCfg exRoute).2.2.take 3 =
        [Event.linkByName exRoute.Device, Event.routeList 7 (ipFamily [10, 0, 0, 1]),
         Event.routeReplace (nexthopRouteOf { index := 7 } [10, 0, 0, 1])]) :=
  ⟨by decide, by decide, rfl, by decide,
    nexthop_precedence exKernel exCfg exRoute [10, 0, 0, 1] 7
      (by decide) (by decide) rfl (by decide)⟩

/-- C7: for every route specification with a gateway, the constructed
on-link nexthop route has as destination exactly the gateway widened to
a host-only prefix (mask length 32 of 32 bits for IPv4, 128 of 128 bits
for IPv6), carries no gateway and no source, is bound to the
specification device index, and has link scope exactly when the gateway
is IPv4 (for IPv6 the scope is left unset, the zero value). -/
theorem createNexthopRoute_host_route (route : Route) (g : IP) (link : Link)
    (hnh : route.Nexthop = some g) :
    createNexthopRoute link route.getNexthopAsIPNet =
      .ok { dst := some { ip := g,
                          mask := if (IP.to4 g).isSome then CIDRMask 32 32
                                  else CIDRMask 128 128 },
            src := [], gw := [], linkIndex := link.index,
            scope := if (IP.to4 g).isSome then SCOPE_LINK else 0, mtu := 0 } ∧
    maskSize (CIDRMask 32 32) = (32, 32) ∧
    maskSize (CIDRMask 128 128) = (128, 128) := by
  refine ⟨?_, by decide, by decide⟩
  rw [getNexthopAsIPNet_some route g hnh, createNexthopRoute_eq]
  rfl

/-- C7 witness: the nexthop construction theorem applied to a concrete
IPv4 gateway. -/
theorem createNexthopRoute_host_route_witness :
    exRoute.Nexthop = some [10, 0, 0, 1] ∧
    (createNexthopRoute exLink exRoute.getNexthopAsIPNet =
      .ok { dst := some { ip := [10, 0, 0, 1],
                          mask := if (IP.to4 [10, 0, 0, 1]).isSome then CIDRMask 32 32
                                  else CIDRMask 128 128 },
            src := [], gw := [], linkIndex := exLink.index,
            scope := if (IP.to4 [10, 0, 0, 1]).isSome then SCOPE_LINK else 0,
            mtu := 0 } ∧
     maskSize (CIDRMask 32 32) = (32, 32) ∧
     maskSize (CIDRMask 128 128) = (128, 128)) :=
  ⟨by decide, createNexthopRoute_host_route exRoute [10, 0, 0, 1] exLink (by decide)⟩

/-- C8: for every route specification whose device resolves, the delete
operation is unconditional: its adapter trace is exactly device
resolution followed by one delete call, with no list query and no
equivalence check; the delete request contains only the destination
prefix and the resolved device index, never the gateway or the source
address, and carries the specification scope exactly when the
destination prefix is IPv4; an adapter delete failure is returned. -/
theorem deleteRoute_request (k : Kernel) (route : Route) (i : Nat)
    (hlink : k.links.lookup route.Device = some i) :
    (deleteRoute k route).2.2 =
      [Event.linkByName route.Device,
       Event.routeDel
         { dst := some route.Prefix, src := [], gw := [], linkIndex := i,
           scope := if (IP.to4 route.Prefix.ip).isSome then route.Scope else 0,
           mtu := 0 }] ∧
    (deleteRoute k route).1 =
      (if k.delFail then .error (.err ("route delete failed")) else .ok ()) ∧
    DeleteRoute k route = deleteRoute k route := by
  refine ⟨?_, ?_, rfl⟩ <;>
    · simp only [deleteRoute, linkByName_some k route.Device i hlink, netlinkRouteDel]
      cases hv : (IP.to4 route.Prefix.ip).isSome <;> cases hdf : k.delFail <;>
        simp [hv, hdf]

/-- C8 witness: the delete-request theorem applied to a concrete IPv4
route. -/
theorem deleteRoute_request_witness :
    exKernel.links.lookup exRoute.Device = some 7 ∧
    ((deleteRoute exKernel exRoute).2.2 =
      [Event.linkByName exRoute.Device,
       Event.routeDel
         { dst := some exRoute.Prefix, src := [], gw := [], linkIndex := 7,
           scope := if (IP.to4 exRoute.Prefix.ip).isSome then exRoute.Scope else 0,
           mtu := 0 }] ∧
     (deleteRoute exKernel exRoute).1 =
       (if exKernel.delFail then .error (.err ("route delete failed")) else .ok ()) ∧
     DeleteRoute exKernel exRoute = deleteRoute exKernel exRoute) :=
  ⟨by decide, deleteRoute_request exKernel exRoute 7 (by decide)⟩

theorem to4_length (ip x : IP) (h : IP.to4 ip = some x) : x.length = 4 := by
  unfold IP.to4 at h
  split at h
  · injection h with h1
    subst h1
    assumption
  · split at h
    · rename_i hc
      injection h with h1
      subst h1
      simp [hc.1]
    · cases h

theorem nn_length (n : IPNet) (nn : IP) (mk : List Nat)
    (h : networkNumberAndMask n = some (nn, mk)) :
    nn.length = 4 ∨ nn.length = 16 := by
  unfold networkNumberAndMask at h
  cases hto : IP.to4 n.ip with
  | some i4 =>
    rw [hto] at h
    have hi4 : i4.length = 4 := to4_length n.ip i4 hto
    simp only [hi4, if_pos rfl] at h
    split at h <;> [skip; split at h] <;> simp_all
  | none =>
    rw [hto] at h
    by_cases h16 : n.ip.length = 16
    · simp [h16] at h
      exact Or.inr (h.2.2.1 ▸ h16)
    · simp [h16] at h

theorem contains_nil_of_wf (n : IPNet)
    (h : (networkNumberAndMask n).isSome = true) :
    n.contains [] = false := by
  cases hm : networkNumberAndMask n with
  | none => rw [hm] at h; cases h
  | some p =>
    obtain ⟨nn, mk⟩ := p
    have hlen := nn_length n nn mk hm
    have hto : IP.to4 [] = none := rfl
    unfold IPNet.contains
    rw [hm, hto]
    rcases hlen with h4 | h4 <;> simp [h4]

/-- C9: under a successful reconciliation, the main-route install
request issued to the adapter is exactly mainRouteSpec; its MTU field
is the device-native MTU when the route has nonzero mtu and the
destination prefix contains the local address, the lower tunnel-safe
route MTU when the route has nonzero mtu and the prefix does not
contain the local address, and stays unset (zero) when the route mtu is
zero; for a well-formed prefix an absent local address is never
contained, so it selects the route MTU. -/
theorem mtu_policy (k : Kernel) (cfg : MTUPolicy) (route : Route)
    (g : IP) (i : Nat)
    (hnh : route.Nexthop = some g)
    (hlink : k.links.lookup route.Device = some i)
    (hlist : k.listFail = false) (hrep : k.replaceFail = false)
    (hmain : ∀ er ∈ routeListOf k { index := i } (ipFamily route.Prefix.ip),
      nlRouteEq er (mainRouteSpec cfg route { index := i }) = false)
    (hsep : nlRouteEq (nexthopRouteOf { index := i } g)
      (mainRouteSpec cfg route { index := i }) = false)
    (hwf : (networkNumberAndMask route.Prefix).isSome = true) :
    Event.routeReplace (mainRouteSpec cfg route { index := i }) ∈
      (replaceRoute k cfg route).2.2 ∧
    (mainRouteSpec cfg route { index := i }).mtu =
      (if route.MTU = 0 then 0
       else if route.Prefix.contains route.Local then cfg.deviceMTU
       else cfg.routeMTU) ∧
    route.Prefix.contains [] = false := by
  refine ⟨?_, ?_, contains_nil_of_wf route.Prefix hwf⟩
  · obtain ⟨b, k2, hrun, _, _⟩ :=
      replaceRoute_success_run k cfg route g i hnh hlink hlist hrep hmain hsep
    rw [hrun]
    cases b <;> simp
  · rw [mainRouteSpec_eq]

/-- C9 witness: the MTU policy theorem applied to a concrete IPv4 route
with nonzero mtu whose prefix contains its local address. -/
theorem mtu_policy_witness :
    exRoute.Nexthop = some [10, 0, 0, 1] ∧
    exKernel.links.lookup exRoute.Device = some 7 ∧
    exKernel.listFail = false ∧
    exKernel.replaceFail = false ∧
    (∀ er ∈ routeListOf exKernel { index := 7 } (ipFamily exRoute.Prefix.ip),
      nlRouteEq er (mainRouteSpec exCfg exRoute { index := 7 }) = false) ∧
    nlRouteEq (nexthopRouteOf { index := 7 } [10, 0, 0, 1])
      (mainRouteSpec exCfg exRoute { index := 7 }) = false ∧
    (networkNumberAndMask exRoute.Prefix).isSome = true ∧
    (Event.routeReplace (mainRouteSpec exCfg exRoute { index := 7 }) ∈
      (replaceRoute exKernel exCfg exRoute).2.2 ∧
     (mainRouteSpec exCfg exRoute { index := 7 }).mtu =
       (if exRoute.MTU = 0 then 0
        else if exRoute.Prefix.contains exRoute.Local then exCfg.deviceMTU
        else exCfg.routeMTU) ∧
     exRoute.Prefix.contains [] = false) :=
  ⟨by decide, by decide, rfl, rfl, by decide, by decide, by decide,
    mtu_policy exKernel exCfg exRoute [10, 0, 0, 1] 7
      (by decide) (by decide) rfl rfl (by decide) (by decide) (by decide)⟩

/-- C10 (implicit): for a route specification whose scope field is zero
(unset), the main-route install request carries the zero scope, the
equivalence check rejects any existing route with a nonzero scope, and
against a table whose routes all have nonzero scope the main route is
treated as absent and re-replaced: the call reports changed and issues
the install request again. -/
theorem scope_unset_matches_only_unset (k : Kernel) (cfg : MTUPolicy)
    (route : Route) (g : IP) (i : Nat) (er : NetlinkRoute)
    (hscope : route.Scope = 0)
    (hnh : route.Nexthop = some g)
    (hlink : k.links.lookup route.Device = some i)
    (hlist : k.listFail = false) (hrep : k.replaceFail = false)
    (htab : ∀ x ∈ k.table, x.scope ≠ 0)
    (hsep : nlRouteEq (nexthopRouteOf { index := i } g)
      (mainRouteSpec cfg route { index := i }) = false)
    (hers : er.scope ≠ 0) :
    (mainRouteSpec cfg route { index := i }).scope = 0 ∧
    nlRouteEq er (mainRouteSpec cfg route { index := i }) = false ∧
    (replaceRoute k cfg route).1 = .ok true ∧
    Event.routeReplace (mainRouteSpec cfg route { index := i }) ∈
      (replaceRoute k cfg route).2.2 := by
  have hms : (mainRouteSpec cfg route { index := i }).scope = 0 := by
    rw [mainRouteSpec_eq]
    exact hscope
  have hner : ∀ x : NetlinkRoute, x.scope ≠ 0 →
      nlRouteEq x (mainRouteSpec cfg route { index := i }) = false := by
    intro x hx
    cases hb : nlRouteEq x (mainRouteSpec cfg route { index := i }) with
    | false => rfl
    | true => exact absurd ((nlRouteEq_scope_eq hb).trans hms) hx
  have hmain : ∀ x ∈ routeListOf k { index := i } (ipFamily route.Prefix.ip),
      nlRouteEq x (mainRouteSpec cfg route { index := i }) = false := by
    intro x hxm
    exact hner x (htab x ((mem_routeListOf k { index := i }
      (ipFamily route.Prefix.ip) x).mp hxm).1)
  obtain ⟨b, k2, hrun, _, _⟩ :=
    replaceRoute_success_run k cfg route g i hnh hlink hlist hrep hmain hsep
  refine ⟨hms, hner er hers, ?_, ?_⟩
  · rw [hrun]
  · rw [hrun]
    cases b <;> simp

/-- C10 witness: the theorem applied to a concrete unset-scope route
against a table holding only a scope-200 twin of its install request,
which is treated as absent and replaced. -/
theorem scope_unset_matches_only_unset_witness :
    exRoute.Scope = 0 ∧
    exRoute.Nexthop = some [10, 0, 0, 1] ∧
    exKernelScoped.links.lookup exRoute.Device = some 7 ∧
    exKernelScoped.listFail = false ∧
    exKernelScoped.replaceFail = false ∧
    (∀ x ∈ exKernelScoped.table, x.scope ≠ 0) ∧
    nlRouteEq (nexthopRouteOf { index := 7 } [10, 0, 0, 1])
      (mainRouteSpec exCfg exRoute { index := 7 }) = false ∧
    exErScoped.scope ≠ 0 ∧
    ((mainRouteSpec exCfg exRoute { index := 7 }).scope = 0 ∧
     nlRouteEq exErScoped (mainRouteSpec exCfg exRoute { index := 7 }) = false ∧
     (replaceRoute exKernelScoped exCfg exRoute).1 = .ok true ∧
     Event.routeReplace (mainRouteSpec exCfg exRoute { index := 7 }) ∈
       (replaceRoute exKernelScoped exCfg exRoute).2.2) :=
  ⟨rfl, by decide, by decide, rfl, rfl, by decide, by decide, by decide,
    scope_unset_matches_only_unset exKernelScoped exCfg exRoute [10, 0, 0, 1] 7
      exErScoped rfl (by decide) (by decide) rfl rfl (by decide) (by decide)
      (by decide)⟩

/-- C4 counterexample: against a kernel whose list operation fails but
whose table already holds both the nexthop route and the main install
request, reconciliation does not return the list error: it reports
success with a change and issues install calls, because lookup swallows
the RouteList error and reports the route as absent. -/
theorem adapter_error_cex :
    exKernelLF.listFail = true ∧
    (replaceRoute exKernelLF exCfg exRoute).1 = .ok true ∧
    Event.routeReplace (mainRouteSpec exCfg exRoute { index := 7 }) ∈
      (replaceRoute exKernelLF exCfg exRoute).2.2 := by
  decide

/-- C4 (amended): device-resolution failures abort the call immediately
with an error and no further adapter operations; install/replace and
delete failures are returned to the caller with the kernel state they
left behind; but a failure of the list-routes query is not surfaced:
lookup swallows it and reports the route absent, and reconciliation
proceeds to attempt the installs and reports success. -/
theorem adapter_error_propagation
    (kA : Kernel) (cfgA : MTUPolicy) (routeA : Route)
    (kB : Kernel) (cfgB : MTUPolicy) (routeB : Route) (gB : IP) (iB : Nat)
    (kC : Kernel) (routeC : Route) (iC : Nat)
    (kD : Kernel) (cfgD : MTUPolicy) (routeD : Route) (gD : IP) (iD : Nat)
    (hA : kA.links.lookup routeA.Device = none)
    (hB1 : routeB.Nexthop = some gB)
    (hB2 : kB.links.lookup routeB.Device = some iB)
    (hB3 : kB.listFail = true) (hB4 : kB.replaceFail = false)
    (hC1 : kC.links.lookup routeC.Device = some iC)
    (hC2 : kC.delFail = true)
    (hD1 : routeD.Nexthop = some gD)
    (hD2 : kD.links.lookup routeD.Device = some iD)
    (hD3 : kD.listFail = true) (hD4 : kD.replaceFail = true) :
    replaceRoute kA cfgA routeA =
      (.error (.err ("unable to lookup interface " ++ routeA.Device ++ ": " ++
        "Link not found")), kA, [Event.linkByName routeA.Device]) ∧
    replaceRoute kB cfgB routeB =
      (.ok true,
       kernelInsert (kernelInsert kB (nexthopRouteOf { index := iB } gB))
         (mainRouteSpec cfgB routeB { index := iB }),
       [Event.linkByName routeB.Device, Event.routeList iB (ipFamily gB),
        Event.routeReplace (nexthopRouteOf { index := iB } gB),
        Event.routeList iB (ipFamily routeB.Prefix.ip),
        Event.routeReplace (mainRouteSpec cfgB routeB { index := iB })]) ∧
    deleteRoute kC routeC =
      (.error (.err ("route delete failed")), kC,
       [Event.linkByName routeC.Device,
        Event.routeDel
          { dst := some routeC.Prefix, src := [], gw := [], linkIndex := iC,
            scope := if (IP.to4 routeC.Prefix.ip).isSome then routeC.Scope else 0,
            mtu := 0 }]) ∧
    replaceRoute kD cfgD routeD =
      (.error (.err ("unable to add nexthop route: " ++
        ("unable to add L2 nexthop route: " ++ "route replace failed"))), kD,
       [Event.linkByName routeD.Device, Event.routeList iD (ipFamily gD),
        Event.routeReplace (nexthopRouteOf { index := iD } gD)]) := by
  have hfamB : ipFamily (nexthopNetOf gB).ip = ipFamily gB := rfl
  have hfamD : ipFamily (nexthopNetOf gD).ip = ipFamily gD := rfl
  refine ⟨?_, ?_, ?_, ?_⟩
  · simp only [replaceRoute, linkByName_none kA routeA.Device hA]
  · have hk1list : (kernelInsert kB (nexthopRouteOf { index := iB } gB)).listFail
        = true := by
      rw [kernelInsert_listFail]; exact hB3
    have hk1rep : (kernelInsert kB (nexthopRouteOf { index := iB } gB)).replaceFail
        = false := by
      rw [kernelInsert_replaceFail]; exact hB4
    simp only [replaceRoute, linkByName_some kB routeB.Device iB hB2,
      getNexthopAsIPNet_some routeB gB hB1, replaceNexthopRoute, createNexthopRoute_eq,
      lookup_listFail kB { index := iB } (nexthopRouteOf { index := iB } gB)
        (nexthopNetOf gB) rfl hB3,
      netlinkRouteReplace, hB4]
    simp [hfamB, hk1rep,
      lookup_listFail (kernelInsert kB (nexthopRouteOf { index := iB } gB))
        { index := iB } (mainRouteSpec cfgB routeB { index := iB }) routeB.Prefix
        (mainRouteSpec_dst cfgB routeB { index := iB }) hk1list]
  · simp only [deleteRoute, linkByName_some kC routeC.Device iC hC1, netlinkRouteDel,
      hC2]
    cases hv : (IP.to4 routeC.Prefix.ip).isSome <;> simp [hv]
  · simp only [replaceRoute, linkByName_some kD routeD.Device iD hD2,
      getNexthopAsIPNet_some routeD gD hD1, replaceNexthopRoute, createNexthopRoute_eq,
      lookup_listFail kD { index := iD } (nexthopRouteOf { index := iD } gD)
        (nexthopNetOf gD) rfl hD3,
      netlinkRouteReplace, hD4, wrapNexthopErr]
    simp [hfamD]

/-- C4 witness: the amended propagation theorem applied to concrete
kernels exercising each failure mode. -/
theorem adapter_error_propagation_witness :
    exKernelNoLink.links.lookup exRoute.Device = none ∧
    exRoute.Nexthop = some [10, 0, 0, 1] ∧
    exKernelLF.links.lookup exRoute.Device = some 7 ∧
    exKernelLF.listFail = true ∧
    exKernelLF.replaceFail = false ∧
    exKernelDelFail.links.lookup exRoute.Device = some 7 ∧
    exKernelDelFail.delFail = true ∧
    exKernelRepFail.links.lookup exRoute.Device = some 7 ∧
    exKernelRepFail.listFail = true ∧
    exKernelRepFail.replaceFail = true ∧
    (replaceRoute exKernelNoLink exCfg exRoute =
      (.error (.err ("unable to lookup interface " ++ exRoute.Device ++ ": " ++
        "Link not found")), exKernelNoLink, [Event.linkByName exRoute.Device]) ∧
     replaceRoute exKernelLF exCfg exRoute =
      (.ok true,
       kernelInsert (kernelInsert exKernelLF (nexthopRouteOf { index := 7 } [10, 0, 0, 1]))
         (mainRouteSpec exCfg exRoute { index := 7 }),
       [Event.linkByName exRoute.Device, Event.routeList 7 (ipFamily [10, 0, 0, 1]),
        Event.routeReplace (nexthopRouteOf { index := 7 } [10, 0, 0, 1]),
        Event.routeList 7 (ipFamily exRoute.Prefix.ip),
        Event.routeReplace (mainRouteSpec exCfg exRoute { index := 7 })]) ∧
     deleteRoute exKernelDelFail exRoute =
      (.error (.err ("route delete failed")), exKernelDelFail,
       [Event.linkByName exRoute.Device,
        Event.routeDel
          { dst := some exRoute.Prefix, src := [], gw := [], linkIndex := 7,
            scope := if (IP.to4 exRoute.Prefix.ip).isSome then exRoute.Scope else 0,
            mtu := 0 }]) ∧
     replaceRoute exKernelRepFail exCfg exRoute =
      (.error (.err ("unable to add nexthop route: " ++
        ("unable to add L2 nexthop route: " ++ "route replace failed"))),
       exKernelRepFail,
       [Event.linkByName exRoute.Device, Event.routeList 7 (ipFamily [10, 0, 0, 1]),
        Event.routeReplace (nexthopRouteOf { index := 7 } [10, 0, 0, 1])])) :=
  ⟨rfl, by decide, by decide, rfl, rfl, by decide, rfl, by decide, rfl, rfl,
    adapter_error_propagation exKernelNoLink exCfg exRoute
      exKernelLF exCfg exRoute [10, 0, 0, 1] 7
      exKernelDelFail exRoute 7
      exKernelRepFail exCfg exRoute [10, 0, 0, 1] 7
      rfl (by decide) (by decide) rfl rfl (by decide) rfl
      (by decide) (by decide) rfl rfl⟩
